import Mathlib

/-!
Verification of the forex price-alert pipeline (src/forex_pipeline.py and
src/Support/Resistance) against its natural-language specification.

The numeric model uses ℚ for the float values flowing through the pipeline.
Where IEEE-754 special values (NaN, ±inf) are semantically relevant — the
pandas RSI computation divides by a possibly-zero rolling mean — the values
are modelled by the type `PF` below, with the numpy/pandas arithmetic rules
for those special values.  Python-level float division (which raises
`ZeroDivisionError` instead of producing inf) is modelled by `pydiv`
returning `none` on a zero divisor.
-/

/-- A pandas/numpy float value: a finite rational, NaN, or a signed infinity. -/
inductive PF where
  | nan : PF
  | pinf : PF
  | ninf : PF
  | val : ℚ → PF
deriving DecidableEq

/-- numpy addition on `PF` (NaN propagates; inf + finite = inf; inf - inf = NaN). -/
def PF.add : PF → PF → PF
  | PF.nan, _ => PF.nan
  | _, PF.nan => PF.nan
  | PF.pinf, PF.ninf => PF.nan
  | PF.ninf, PF.pinf => PF.nan
  | PF.pinf, _ => PF.pinf
  | _, PF.pinf => PF.pinf
  | PF.ninf, _ => PF.ninf
  | _, PF.ninf => PF.ninf
  | PF.val a, PF.val b => PF.val (a + b)

/-- numpy subtraction on `PF`. -/
def PF.sub : PF → PF → PF
  | PF.nan, _ => PF.nan
  | _, PF.nan => PF.nan
  | PF.pinf, PF.pinf => PF.nan
  | PF.ninf, PF.ninf => PF.nan
  | PF.pinf, _ => PF.pinf
  | _, PF.ninf => PF.pinf
  | PF.ninf, _ => PF.ninf
  | _, PF.pinf => PF.ninf
  | PF.val a, PF.val b => PF.val (a - b)

/-- numpy division on `PF`: `0/0 = NaN`, `x/0 = ±inf` for finite `x ≠ 0`,
finite / inf = 0 (signed zeros are collapsed to `0` in ℚ). -/
def PF.div : PF → PF → PF
  | PF.nan, _ => PF.nan
  | _, PF.nan => PF.nan
  | PF.pinf, PF.pinf => PF.nan
  | PF.pinf, PF.ninf => PF.nan
  | PF.ninf, PF.pinf => PF.nan
  | PF.ninf, PF.ninf => PF.nan
  | PF.pinf, PF.val b => if 0 ≤ b then PF.pinf else PF.ninf
  | PF.ninf, PF.val b => if 0 ≤ b then PF.ninf else PF.pinf
  | PF.val _, PF.pinf => PF.val 0
  | PF.val _, PF.ninf => PF.val 0
  | PF.val a, PF.val b =>
      if b = 0 then (if a = 0 then PF.nan else if 0 < a then PF.pinf else PF.ninf)
      else PF.val (a / b)

/-- Lift an optional rational (a possibly-NaN pandas cell) into `PF`. -/
def toPF : Option ℚ → PF
  | none => PF.nan
  | some q => PF.val q

/-- Python float division: raises `ZeroDivisionError` (modelled as `none`)
on a zero divisor.  Used by `get_crossover_status`, whose `try/except`
catches the exception. -/
def pydiv (a b : ℚ) : Option ℚ := if b = 0 then none else some (a / b)

/-- Round a rational to the nearest integer, ties to even — the rounding of
Python's `round` and of `format` with a fixed number of decimals. -/
def halfEven (q : ℚ) : ℤ :=
  let f := ⌊q⌋
  let r := q - (f : ℚ)
  if r < 1/2 then f
  else if 1/2 < r then f + 1
  else if f % 2 = 0 then f else f + 1

/-- Python fixed-point formatting with two decimals (the .2f format spec):
round half-even at the second decimal and print sign, integer part, dot,
and a two-digit fractional part. -/
def fmt2 (q : ℚ) : String :=
  let n := halfEven (q * 100)
  let m := n.natAbs
  let fp := m % 100
  (if q < 0 then "-" else "") ++ toString (m / 100) ++ "." ++
    (if fp < 10 then "0" ++ toString fp else toString fp)

/-- The function `get_crossover_status` from src/forex_pipeline.py lines
145-161 (the
identical function appears in src/Support/Resistance lines 43-57).  The
`try` body is modelled as an `Option String`; the only statement that can
raise is the float division (zero divisor), and the `except` branch
returns "Crossover Unknown". -/
def get_crossover_status (current_ema10 current_ema50 prev_ema10 prev_ema50 : ℚ) :
    String :=
  let core : Option String :=
    if prev_ema10 < prev_ema50 ∧ current_ema10 > current_ema50 then
      some "Bullish Crossover (Golden Cross)"
    else if prev_ema10 > prev_ema50 ∧ current_ema10 < current_ema50 then
      some "Bearish Crossover (Death Cross)"
    else if current_ema10 > current_ema50 then
      (pydiv (current_ema10 - current_ema50) current_ema50).map
        (fun d => "EMA10 > EMA50 by " ++ fmt2 (d * 100) ++ "% (Bullish)")
    else
      (pydiv (current_ema50 - current_ema10) current_ema10).map
        (fun d => "EMA10 < EMA50 by " ++ fmt2 (d * 100) ++ "% (Bearish)")
  core.getD "Crossover Unknown"

/-- The trend classification from src/forex_pipeline.py line 349:
`trend = "Uptrend" if latest["ema10"] > latest["ema50"] else "Downtrend"`
(same line in src/Support/Resistance line 105). -/
def trend_direction (ema10 ema50 : ℚ) : String :=
  if ema10 > ema50 then "Uptrend" else "Downtrend"

/-- One cleaned OHLC bar of the normalized series (a row of the DataFrame
that `fetch_data` returns): timestamp plus the four numeric columns. -/
structure Bar where
  ts : ℕ
  op : ℚ
  hi : ℚ
  lo : ℚ
  cl : ℚ
deriving DecidableEq

/-- A raw provider row before numeric coercion: `pd.to_numeric(errors="coerce")`
turns an unparseable cell into NaN, modelled by `none`. -/
structure RawBar where
  ts : ℕ
  opv : Option ℚ
  hiv : Option ℚ
  lov : Option ℚ
  clv : Option ℚ
deriving DecidableEq

/-- The coercion-and-`dropna` step of `fetch_data`: a row survives iff all
four OHLC cells parsed. -/
def parseRow (r : RawBar) : Option Bar :=
  match r.opv, r.hiv, r.lov, r.clv with
  | some o, some h, some l, some c => some ⟨r.ts, o, h, l, c⟩
  | _, _, _, _ => none

/-- The cleaning portion of `fetch_data` (src/forex_pipeline.py lines 87-97):
sort rows by datetime ascending, coerce the OHLC columns to numeric, and
drop rows containing NaN.  No de-duplication and no minimum-length check
appear in the source. -/
def fetch_data_clean (rows : List RawBar) : List Bar :=
  (rows.mergeSort (fun a b => a.ts ≤ b.ts)).filterMap parseRow

/-- The recursive tail of `ewm(span, adjust=False).mean()`: given the previous
EMA value, each close `c` produces `c * k + prev * (1 - k)`. -/
def ewmaAux (k : ℚ) (prev : ℚ) : List ℚ → List ℚ
  | [] => []
  | c :: cs => (c * k + prev * (1 - k)) :: ewmaAux k (c * k + prev * (1 - k)) cs

/-- The column `df["close"].ewm(span=span, adjust=False).mean()` (src/forex_pipeline.py
lines 111-112): seeded with the first close, smoothing factor `k = 2/(span+1)`. -/
def emaSpan (span : ℕ) (closes : List ℚ) : List ℚ :=
  match closes with
  | [] => []
  | c :: cs => c :: ewmaAux (2 / ((span : ℚ) + 1)) c cs

/-- Tail of `df["close"].diff()` once the previous close is known. -/
def diffAux (prev : ℚ) : List ℚ → List (Option ℚ)
  | [] => []
  | c :: cs => some (c - prev) :: diffAux c cs

/-- The column `df["close"].diff()` (src/forex_pipeline.py line 115): the first delta is
NaN (`none`), the rest are consecutive differences. -/
def diff : List ℚ → List (Option ℚ)
  | [] => []
  | c :: cs => none :: diffAux c cs

/-- The column `delta.where(delta > 0, 0)` (line 116): keep positive deltas, replace
everything else — including the leading NaN, for which the comparison is
False — by 0. -/
def gains (closes : List ℚ) : List ℚ :=
  (diff closes).map (fun d =>
    match d with
    | some x => if x > 0 then x else 0
    | none => 0)

/-- The column `(-delta.where(delta < 0, 0))` (line 117): keep negative deltas, replace
the rest by 0, then negate. -/
def losses (closes : List ℚ) : List ℚ :=
  (diff closes).map (fun d =>
    -(match d with
      | some x => if x < 0 then x else 0
      | none => 0))

/-- The column `series.rolling(window=w).mean()`: NaN (`none`) until the window is full,
then the mean of the trailing `w` entries. -/
def rollingMean (w : ℕ) (xs : List ℚ) : List (Option ℚ) :=
  (List.range xs.length).map (fun i =>
    if i + 1 < w then none
    else some (((xs.take (i + 1)).drop (i + 1 - w)).sum / (w : ℚ)))

/-- The column `rs = gain / loss; rsi = 100 - (100 / (1 + rs))` (lines 118-119),
with the pandas float semantics of `PF`: a positive gain over a zero loss
gives rs = +inf, both zero give rs = NaN. -/
def rsiSeries (closes : List ℚ) : List PF :=
  ((rollingMean 14 (gains closes)).zip (rollingMean 14 (losses closes))).map
    (fun gl =>
      PF.sub (PF.val 100)
        (PF.div (PF.val 100) (PF.add (PF.val 1) (PF.div (toPF gl.1) (toPF gl.2)))))

/-- Tail of the true-range series once a previous close exists:
`max(high - low, |high - prevClose|, |low - prevClose|)` (lines 122-125). -/
def trAux (prev : Bar) : List Bar → List ℚ
  | [] => []
  | b :: bs =>
      max (b.hi - b.lo) (max |b.hi - prev.cl| |b.lo - prev.cl|) :: trAux b bs

/-- The true-range series (lines 122-125): `close.shift()` is NaN at row 0, and
the row-wise `max(axis=1)` skips NaN, so row 0 contributes `high - low` alone. -/
def trueRange : List Bar → List ℚ
  | [] => []
  | b :: bs => (b.hi - b.lo) :: trAux b bs

/-- The indicator columns that `compute_indicators` (src/forex_pipeline.py
lines 107-128) adds to the DataFrame. -/
structure IndicatorFrame where
  ema10 : List ℚ
  ema50 : List ℚ
  rsi : List PF
  atr : List (Option ℚ)

/-- The function `compute_indicators` (src/forex_pipeline.py lines 107-128). -/
def compute_indicators (bars : List Bar) : IndicatorFrame :=
  { ema10 := emaSpan 10 (bars.map Bar.cl)
    ema50 := emaSpan 50 (bars.map Bar.cl)
    rsi := rsiSeries (bars.map Bar.cl)
    atr := rollingMean 14 (trueRange bars) }

/-- The `rsi` field of the output row built in `main` (line 367):
`latest["rsi"]`, i.e. the last entry of the rsi column, copied as-is. -/
def row_rsi (closes : List ℚ) : Option PF :=
  (rsiSeries closes).getLast?

/-- Column lookup in a DataFrame; `none` models the `KeyError` raised by a
missing column. -/
def lookupCol : List (String × List ℚ) → String → Option (List ℚ)
  | [], _ => none
  | (n, v) :: rest, name => if n = name then some v else lookupCol rest name

/-- A DataFrame as seen by `detect_levels`: named numeric columns. -/
structure Df where
  cols : List (String × List ℚ)

/-- The value `pandas.Series.min()` of a possibly-empty column slice: NaN when empty. -/
def listMin : List ℚ → PF
  | [] => PF.nan
  | x :: xs => PF.val (xs.foldl min x)

/-- The value `pandas.Series.max()` of a possibly-empty column slice: NaN when empty. -/
def listMax : List ℚ → PF
  | [] => PF.nan
  | x :: xs => PF.val (xs.foldl max x)

/-- Python `round(x, n)` on a finite value (half-even); NaN and infinities
pass through. -/
def roundPF (n : ℕ) : PF → PF
  | PF.val q => PF.val ((halfEven (q * (10 : ℚ) ^ n) : ℚ) / (10 : ℚ) ^ n)
  | other => other

/-- The function `detect_levels` (src/forex_pipeline.py lines 133-143): take the last
`window` rows, return (min low, max high) rounded to 5 decimals; any
exception in the `try` body — in particular a `KeyError` for a missing
"low"/"high" column — is caught and `(0.0, 0.0)` returned. -/
def detect_levels (df : Df) (window : ℕ) : PF × PF :=
  match lookupCol df.cols "low", lookupCol df.cols "high" with
  | some lows, some highs =>
      (roundPF 5 (listMin (lows.drop (lows.length - window))),
       roundPF 5 (listMax (highs.drop (highs.length - window))))
  | _, _ => (PF.val 0, PF.val 0)

/-- The signal triple that `main` (src/forex_pipeline.py lines 340-376) stores
in the output row: `trend_direction`, `crossover`, and the raw `rsi` value
copied from the indicator frame. -/
def classify_signal (rsi : PF) (c10 c50 p10 p50 : ℚ) : String × String × PF :=
  (trend_direction c10 c50, get_crossover_status c10 c50 p10 p50, rsi)

/-- The spec-side predicate for claim C8: the string carries a
reversal-risk qualifier. -/
def mentionsReversalRisk (s : String) : Prop :=
  "reversal".data <:+: s.data ∨ "Reversal".data <:+: s.data

namespace Throttle

/-- Modelled from the spec: the Alert Throttle of spec §4.4 has no
implementation in src/ — the dispatch loop of `main`
(src/forex_pipeline.py lines 384-401) sends every collected row
unconditionally.  The throttle state maps a (pair, direction) key to the
last dispatch time; `lastDispatch` looks the key up. -/
def lastDispatch : List ((String × String) × Int) → String → String → Option Int
  | [], _, _ => none
  | (k, t) :: rest, pair, direction =>
      if k = (pair, direction) then some t else lastDispatch rest pair direction

/-- Modelled from the spec: `shouldSend(pair, direction, now)` is true iff no
prior dispatch exists for the key or `now - lastDispatch ≥ cooldown`. -/
def shouldSend (st : List ((String × String) × Int)) (pair direction : String)
    (now cooldown : Int) : Bool :=
  match lastDispatch st pair direction with
  | none => true
  | some t => cooldown ≤ now - t

/-- Modelled from the spec: `record(pair, direction, now)` stores `now` as the
key's last dispatch time (newest entry shadows older ones). -/
def record (st : List ((String × String) × Int)) (pair direction : String)
    (now : Int) : List ((String × String) × Int) :=
  ((pair, direction), now) :: st

end Throttle

/-- Helper: two strings whose first characters differ are different. -/
theorem string_head_ne {s t : String} {a b : Char} (hs : s.data.head? = some a)
    (ht : t.data.head? = some b) (hab : a ≠ b) : s ≠ t := by
  intro h
  rw [h, ht] at hs
  exact hab (Option.some.inj hs).symm

/-- C3: for every indicator snapshot the trend is "Uptrend" exactly when
ema10 > ema50 and "Downtrend" otherwise; in particular a tie
(ema10 = ema50) is classified "Downtrend". -/
theorem trend_tiebreak (e10 e50 : ℚ) :
    (trend_direction e10 e50 = "Uptrend" ↔ e10 > e50) ∧
    (trend_direction e10 e50 = "Downtrend" ↔ ¬e10 > e50) ∧
    (e10 = e50 → trend_direction e10 e50 = "Downtrend") := by
  by_cases h : e10 > e50
  · refine ⟨?_, ?_, ?_⟩
    · simp [trend_direction, h]
    · simp [trend_direction, h]
    · intro he
      rw [he] at h
      exact absurd h (lt_irrefl e50)
  · refine ⟨?_, ?_, fun _ => ?_⟩
    · simp only [trend_direction, if_neg h]
      exact iff_of_false (by decide) h
    · simp [trend_direction, h]
    · simp [trend_direction, h]

/-- Witness for C3 at the tie input ema10 = ema50 = 1. -/
theorem trend_tiebreak_witness : trend_direction 1 1 = "Downtrend" :=
  (trend_tiebreak 1 1).2.2 rfl

/-- C10: when the support/resistance computation raises (for example the
"low" or "high" column is missing), `detect_levels` returns the silent
fallback (0.0, 0.0); a frame whose genuine levels are zero produces the
same output, so the two cases are indistinguishable downstream. -/
theorem detect_levels_fallback (df : Df) (window : ℕ)
    (h : lookupCol df.cols "low" = none ∨ lookupCol df.cols "high" = none) :
    detect_levels df window = (PF.val 0, PF.val 0) ∧
    detect_levels ⟨[("low", [0]), ("high", [0])]⟩ 20 = (PF.val 0, PF.val 0) := by
  constructor
  · cases hl : lookupCol df.cols "low" with
    | none => simp [detect_levels, hl]
    | some lows =>
        rcases h with h | h
        · exact absurd (hl.symm.trans h) (by simp)
        · simp [detect_levels, hl, h]
  · have h0 : roundPF 5 (PF.val 0) = PF.val 0 := by
      norm_num [roundPF, halfEven]
    simp [detect_levels, lookupCol, listMin, listMax, h0]

/-- Witness for C10: a frame with no "low"/"high" columns yields (0.0, 0.0). -/
theorem detect_levels_fallback_witness :
    detect_levels ⟨[("close", [1])]⟩ 20 = (PF.val 0, PF.val 0) :=
  (detect_levels_fallback ⟨[("close", [1])]⟩ 20 (Or.inl (by decide))).1

/-- C4 (modelled from the spec, see `Throttle.shouldSend`): `shouldSend`
is true iff no dispatch is recorded for the key or the cooldown has
elapsed; and when `record` follows a successful check, a second check for
the same key within the cooldown window returns false. -/
theorem throttle_contract (st : List ((String × String) × Int))
    (pair direction : String) (now cooldown : Int) :
    (Throttle.shouldSend st pair direction now cooldown = true ↔
      Throttle.lastDispatch st pair direction = none ∨
      ∃ t, Throttle.lastDispatch st pair direction = some t ∧ cooldown ≤ now - t) ∧
    (∀ now2 : Int, Throttle.shouldSend st pair direction now cooldown = true →
      now2 - now < cooldown →
      Throttle.shouldSend (Throttle.record st pair direction now)
        pair direction now2 cooldown = false) := by
  constructor
  · unfold Throttle.shouldSend
    cases h : Throttle.lastDispatch st pair direction with
    | none => simp
    | some t => simp [h]
  · intro now2 _ hlt
    unfold Throttle.shouldSend Throttle.record Throttle.lastDispatch
    simp
    omega

/-- Witness for C4: the (true, false) scenario at a concrete key and times. -/
theorem throttle_contract_witness :
    Throttle.shouldSend [] "EUR/USD" "Uptrend" 1000 3600 = true ∧
    Throttle.shouldSend (Throttle.record [] "EUR/USD" "Uptrend" 1000)
      "EUR/USD" "Uptrend" 1010 3600 = false := by
  have h := throttle_contract [] "EUR/USD" "Uptrend" 1000 3600
  have h1 : Throttle.shouldSend [] "EUR/USD" "Uptrend" 1000 3600 = true :=
    h.1.mpr (Or.inl rfl)
  exact ⟨h1, h.2 1010 h1 (by decide)⟩

/-- C9: `get_crossover_status` is total — every input yields one of the five
string forms — and in the percentage-separation branches a zero divisor
(current ema50 = 0 on the bullish side, current ema10 = 0 on the bearish
side) is caught and mapped to "Crossover Unknown". -/
theorem get_crossover_status_total (c10 c50 p10 p50 : ℚ) :
    (get_crossover_status c10 c50 p10 p50 = "Bullish Crossover (Golden Cross)" ∨
     get_crossover_status c10 c50 p10 p50 = "Bearish Crossover (Death Cross)" ∨
     get_crossover_status c10 c50 p10 p50 = "Crossover Unknown" ∨
     (∃ q, get_crossover_status c10 c50 p10 p50 =
        "EMA10 > EMA50 by " ++ fmt2 q ++ "% (Bullish)") ∨
     (∃ q, get_crossover_status c10 c50 p10 p50 =
        "EMA10 < EMA50 by " ++ fmt2 q ++ "% (Bearish)")) ∧
    (¬(p10 < p50 ∧ c10 > c50) → ¬(p10 > p50 ∧ c10 < c50) → c10 > c50 →
      c50 = 0 → get_crossover_status c10 c50 p10 p50 = "Crossover Unknown") ∧
    (¬(p10 < p50 ∧ c10 > c50) → ¬(p10 > p50 ∧ c10 < c50) → ¬c10 > c50 →
      c10 = 0 → get_crossover_status c10 c50 p10 p50 = "Crossover Unknown") := by
  by_cases h1 : p10 < p50 ∧ c10 > c50
  · exact ⟨Or.inl (by simp [get_crossover_status, h1]),
      fun hn _ _ _ => absurd h1 hn, fun hn _ _ _ => absurd h1 hn⟩
  · by_cases h2 : p10 > p50 ∧ c10 < c50
    · exact ⟨Or.inr (Or.inl (by simp [get_crossover_status, h1, h2])),
        fun _ hn _ _ => absurd h2 hn, fun _ hn _ _ => absurd h2 hn⟩
    · by_cases h3 : c10 > c50
      · by_cases h4 : c50 = 0
        · have hres : get_crossover_status c10 c50 p10 p50 = "Crossover Unknown" := by
            simp only [get_crossover_status]
            rw [if_neg h1, if_neg h2, if_pos h3]
            simp only [pydiv, if_pos h4, Option.map_none', Option.getD_none]
          exact ⟨Or.inr (Or.inr (Or.inl hres)), fun _ _ _ _ => hres,
            fun _ _ hn _ => absurd h3 hn⟩
        · have hres : get_crossover_status c10 c50 p10 p50 =
              "EMA10 > EMA50 by " ++ fmt2 ((c10 - c50) / c50 * 100) ++ "% (Bullish)" := by
            simp only [get_crossover_status]
            rw [if_neg h1, if_neg h2, if_pos h3]
            simp only [pydiv, if_neg h4, Option.map_some', Option.getD_some]
          exact ⟨Or.inr (Or.inr (Or.inr (Or.inl ⟨(c10 - c50) / c50 * 100, hres⟩))),
            fun _ _ _ hz => absurd hz h4, fun _ _ hn _ => absurd h3 hn⟩
      · by_cases h4 : c10 = 0
        · have hres : get_crossover_status c10 c50 p10 p50 = "Crossover Unknown" := by
            simp only [get_crossover_status]
            rw [if_neg h1, if_neg h2, if_neg h3]
            simp only [pydiv, if_pos h4, Option.map_none', Option.getD_none]
          exact ⟨Or.inr (Or.inr (Or.inl hres)), fun _ _ hn _ => absurd hn h3,
            fun _ _ _ _ => hres⟩
        · have hres : get_crossover_status c10 c50 p10 p50 =
              "EMA10 < EMA50 by " ++ fmt2 ((c50 - c10) / c10 * 100) ++ "% (Bearish)" := by
            simp only [get_crossover_status]
            rw [if_neg h1, if_neg h2, if_neg h3]
            simp only [pydiv, if_neg h4, Option.map_some', Option.getD_some]
          exact ⟨Or.inr (Or.inr (Or.inr (Or.inr ⟨(c50 - c10) / c10 * 100, hres⟩))),
            fun _ _ hn _ => absurd hn h3, fun _ _ _ hz => absurd hz h4⟩

/-- Witness for C9: current ema10 = 1, ema50 = 0, previous EMAs tied — the
bullish-bias division by zero is caught. -/
theorem get_crossover_status_total_witness :
    get_crossover_status 1 0 5 5 = "Crossover Unknown" :=
  (get_crossover_status_total 1 0 5 5).2.1 (by decide) (by decide) (by decide) rfl

/-- Helper: when neither strict crossover condition holds, the result is
"Crossover Unknown" or one of the percentage-separation strings. -/
theorem no_cross_result (c10 c50 p10 p50 : ℚ)
    (h1 : ¬(p10 < p50 ∧ c10 > c50)) (h2 : ¬(p10 > p50 ∧ c10 < c50)) :
    get_crossover_status c10 c50 p10 p50 = "Crossover Unknown" ∨
    (∃ q, get_crossover_status c10 c50 p10 p50 =
      "EMA10 > EMA50 by " ++ fmt2 q ++ "% (Bullish)") ∨
    (∃ q, get_crossover_status c10 c50 p10 p50 =
      "EMA10 < EMA50 by " ++ fmt2 q ++ "% (Bearish)") := by
  by_cases h3 : c10 > c50
  · by_cases h4 : c50 = 0
    · left
      simp only [get_crossover_status]
      rw [if_neg h1, if_neg h2, if_pos h3]
      simp only [pydiv, if_pos h4, Option.map_none', Option.getD_none]
    · right; left
      refine ⟨(c10 - c50) / c50 * 100, ?_⟩
      simp only [get_crossover_status]
      rw [if_neg h1, if_neg h2, if_pos h3]
      simp only [pydiv, if_neg h4, Option.map_some', Option.getD_some]
  · by_cases h4 : c10 = 0
    · left
      simp only [get_crossover_status]
      rw [if_neg h1, if_neg h2, if_neg h3]
      simp only [pydiv, if_pos h4, Option.map_none', Option.getD_none]
    · right; right
      refine ⟨(c50 - c10) / c10 * 100, ?_⟩
      simp only [get_crossover_status]
      rw [if_neg h1, if_neg h2, if_neg h3]
      simp only [pydiv, if_neg h4, Option.map_some', Option.getD_some]

/-- C1 (amended): the crossover labels use strict previous-bar inequalities —
"Bullish Crossover (Golden Cross)" is produced exactly when
prevEma10 < prevEma50 and currEma10 > currEma50, and
"Bearish Crossover (Death Cross)" exactly when prevEma10 > prevEma50 and
currEma10 < currEma50; a tie of the previous EMAs never yields a
crossover label. -/
theorem crossover_labels_strict (c10 c50 p10 p50 : ℚ) :
    (get_crossover_status c10 c50 p10 p50 = "Bullish Crossover (Golden Cross)" ↔
      p10 < p50 ∧ c10 > c50) ∧
    (get_crossover_status c10 c50 p10 p50 = "Bearish Crossover (Death Cross)" ↔
      p10 > p50 ∧ c10 < c50) := by
  by_cases h1 : p10 < p50 ∧ c10 > c50
  · have hres : get_crossover_status c10 c50 p10 p50 =
        "Bullish Crossover (Golden Cross)" := by
      simp [get_crossover_status, h1]
    have hb : ¬(p10 > p50 ∧ c10 < c50) := fun hc => absurd hc.1 (not_lt.mpr h1.1.le)
    rw [hres]
    exact ⟨iff_of_true rfl h1, iff_of_false (by decide) hb⟩
  · by_cases h2 : p10 > p50 ∧ c10 < c50
    · have hres : get_crossover_status c10 c50 p10 p50 =
          "Bearish Crossover (Death Cross)" := by
        simp [get_crossover_status, h1, h2]
      rw [hres]
      exact ⟨iff_of_false (by decide) h1, iff_of_true rfl h2⟩
    · rcases no_cross_result c10 c50 p10 p50 h1 h2 with hres | ⟨q, hres⟩ | ⟨q, hres⟩ <;>
        rw [hres]
      · exact ⟨iff_of_false (by decide) h1, iff_of_false (by decide) h2⟩
      · exact ⟨iff_of_false (string_head_ne rfl rfl (by decide)) h1,
          iff_of_false (string_head_ne rfl rfl (by decide)) h2⟩
      · exact ⟨iff_of_false (string_head_ne rfl rfl (by decide)) h1,
          iff_of_false (string_head_ne rfl rfl (by decide)) h2⟩

/-- Witness for C1 (amended) on a strict bullish crossover input. -/
theorem crossover_labels_strict_witness :
    get_crossover_status 2 1 1 2 = "Bullish Crossover (Golden Cross)" :=
  (crossover_labels_strict 2 1 1 2).1.mpr (by constructor <;> norm_num)

/-- Counterexample to C1 as stated: at prevEma10 = prevEma50 = 1 and
currEma10 = 2 > currEma50 = 1 the claim's non-strict condition
(prevEma10 ≤ prevEma50 and currEma10 > currEma50) holds, but the code
labels no bullish crossover — it returns the percentage-separation
string instead. -/
theorem crossover_claim_counterexample :
    get_crossover_status 2 1 1 1 = "EMA10 > EMA50 by 100.00% (Bullish)" ∧
    get_crossover_status 2 1 1 1 ≠ "Bullish Crossover (Golden Cross)" ∧
    (1 : ℚ) ≤ 1 ∧ (2 : ℚ) > 1 := by
  have h1 : ¬((1 : ℚ) < 1 ∧ (2 : ℚ) > 1) := by norm_num
  have h2 : ¬((1 : ℚ) > 1 ∧ (2 : ℚ) < 1) := by norm_num
  have h3 : (2 : ℚ) > 1 := by norm_num
  have h4 : ¬(1 : ℚ) = 0 := by norm_num
  have hres : get_crossover_status 2 1 1 1 =
      "EMA10 > EMA50 by " ++ fmt2 (((2 : ℚ) - 1) / 1 * 100) ++ "% (Bullish)" := by
    simp only [get_crossover_status]
    rw [if_neg h1, if_neg h2, if_pos h3]
    simp only [pydiv, if_neg h4, Option.map_some', Option.getD_some]
  have harg : ((2 : ℚ) - 1) / 1 * 100 = 100 := by norm_num
  have hfmt : fmt2 100 = "100.00" := by
    have hn : halfEven ((100 : ℚ) * 100) = 10000 := by norm_num [halfEven]
    simp only [fmt2, hn]
    norm_num
    decide
  rw [hres, harg, hfmt]
  refine ⟨rfl, ?_, by norm_num, by norm_num⟩
  decide

/-- C8 (amended): the classifier emits no reversal-risk qualifier.  Its trend
and crossover outputs are functions of the EMA values alone — the RSI value
does not influence them — and on crossover inputs (and for the trend string
always) the output carries no "reversal risk" text. -/
theorem classify_signal_no_reversal (rsi rsi2 : PF) (c10 c50 p10 p50 : ℚ) :
    (classify_signal rsi c10 c50 p10 p50).1 = (classify_signal rsi2 c10 c50 p10 p50).1 ∧
    (classify_signal rsi c10 c50 p10 p50).2.1 =
      (classify_signal rsi2 c10 c50 p10 p50).2.1 ∧
    ¬mentionsReversalRisk (classify_signal rsi c10 c50 p10 p50).1 ∧
    (p10 < p50 ∧ c10 > c50 →
      ¬mentionsReversalRisk (classify_signal rsi c10 c50 p10 p50).2.1) ∧
    (p10 > p50 ∧ c10 < c50 →
      ¬mentionsReversalRisk (classify_signal rsi c10 c50 p10 p50).2.1) := by
  refine ⟨rfl, rfl, ?_, ?_, ?_⟩
  · show ¬mentionsReversalRisk (trend_direction c10 c50)
    by_cases h : c10 > c50
    · simp only [trend_direction, if_pos h, mentionsReversalRisk]; decide
    · simp only [trend_direction, if_neg h, mentionsReversalRisk]; decide
  · intro h1
    show ¬mentionsReversalRisk (get_crossover_status c10 c50 p10 p50)
    have hres : get_crossover_status c10 c50 p10 p50 =
        "Bullish Crossover (Golden Cross)" := by
      simp [get_crossover_status, h1]
    rw [hres]; simp only [mentionsReversalRisk]; decide
  · intro h2
    show ¬mentionsReversalRisk (get_crossover_status c10 c50 p10 p50)
    have h1 : ¬(p10 < p50 ∧ c10 > c50) := fun hc => absurd hc.1 (not_lt.mpr h2.1.le)
    have hres : get_crossover_status c10 c50 p10 p50 =
        "Bearish Crossover (Death Cross)" := by
      simp [get_crossover_status, h1, h2]
    rw [hres]; simp only [mentionsReversalRisk]; decide

/-- Witness for C8 (amended) at an overbought RSI with a bullish crossover. -/
theorem classify_signal_no_reversal_witness :
    ¬mentionsReversalRisk (classify_signal (PF.val 75) 3 2 1 2).2.1 :=
  (classify_signal_no_reversal (PF.val 75) PF.nan 3 2 1 2).2.2.2.1 (by decide)

/-- Counterexample to C8 as stated: RSI = 75 (> 70, overbought) together with
a bullish crossover — the combination the claim says must carry a
"reversal risk" qualifier — produces only the plain trend and crossover
strings, neither of which mentions reversal risk. -/
theorem reversal_risk_counterexample :
    classify_signal (PF.val 75) 3 2 1 2 =
      ("Uptrend", "Bullish Crossover (Golden Cross)", PF.val 75) ∧
    ¬mentionsReversalRisk "Uptrend" ∧
    ¬mentionsReversalRisk "Bullish Crossover (Golden Cross)" ∧
    (75 : ℚ) > 70 := by
  refine ⟨?_, by simp only [mentionsReversalRisk]; decide,
    by simp only [mentionsReversalRisk]; decide, by decide⟩
  show (trend_direction 3 2, get_crossover_status 3 2 1 2, PF.val 75) = _
  have ht : trend_direction 3 2 = "Uptrend" := by
    simp only [trend_direction]; rw [if_pos (by decide : (3 : ℚ) > 2)]
  have hc : get_crossover_status 3 2 1 2 = "Bullish Crossover (Golden Cross)" := by
    simp [get_crossover_status, (by decide : (1 : ℚ) < 2), (by decide : (3 : ℚ) > 2)]
  rw [ht, hc]

/-- Helper for C5: the element-wise recurrence of `ewmaAux`. -/
theorem ewmaAux_get? (k : ℚ) :
    ∀ (cs : List ℚ) (prev : ℚ) (i : ℕ) (c p : ℚ),
      cs.get? i = some c → (prev :: ewmaAux k prev cs).get? i = some p →
      (ewmaAux k prev cs).get? i = some (c * k + p * (1 - k)) := by
  intro cs
  induction cs with
  | nil => intro prev i c p h1 _; simp at h1
  | cons x xs ih =>
    intro prev i c p h1 h2
    cases i with
    | zero =>
      simp only [List.get?_cons_zero, Option.some.injEq] at h1 h2
      simp [ewmaAux, h1, h2]
    | succ j =>
      have h1j : xs.get? j = some c := by simpa using h1
      have h2j : ((x * k + prev * (1 - k)) ::
          ewmaAux k (x * k + prev * (1 - k)) xs).get? j = some p := by
        simpa [ewmaAux] using h2
      simpa [ewmaAux] using ih (x * k + prev * (1 - k)) j c p h1j h2j

/-- C5: the EMA column satisfies `ema[0] = close[0]` and
`ema[i] = close[i]*k + ema[i-1]*(1-k)` with `k = 2/(span+1)`, and
`compute_indicators` computes it for span 10 and span 50. -/
theorem ema_recurrence (span : ℕ) (closes : List ℚ) (bars : List Bar) :
    ((emaSpan span closes).get? 0 = closes.get? 0) ∧
    (∀ i c p, closes.get? (i + 1) = some c →
      (emaSpan span closes).get? i = some p →
      (emaSpan span closes).get? (i + 1) =
        some (c * (2 / ((span : ℚ) + 1)) + p * (1 - 2 / ((span : ℚ) + 1)))) ∧
    (compute_indicators bars).ema10 = emaSpan 10 (bars.map Bar.cl) ∧
    (compute_indicators bars).ema50 = emaSpan 50 (bars.map Bar.cl) := by
  refine ⟨?_, ?_, rfl, rfl⟩
  · cases closes <;> simp [emaSpan]
  · intro i c p h1 h2
    cases closes with
    | nil => simp at h1
    | cons c0 cs =>
      have h1j : cs.get? i = some c := by simpa using h1
      have h2j : (c0 :: ewmaAux (2 / ((span : ℚ) + 1)) c0 cs).get? i = some p := by
        simpa [emaSpan] using h2
      simpa [emaSpan] using
        ewmaAux_get? (2 / ((span : ℚ) + 1)) cs c0 i c p h1j h2j

/-- Witness for C5: the recurrence evaluated on the series [1, 2] at span 10. -/
theorem ema_recurrence_witness :
    (emaSpan 10 [1, 2]).get? 1 =
      some (2 * (2 / (((10 : ℕ) : ℚ) + 1)) + 1 * (1 - 2 / (((10 : ℕ) : ℚ) + 1))) :=
  (ema_recurrence 10 [1, 2] []).2.1 0 2 1 rfl rfl

/-- Helper for C7: the element-wise form of `trAux`. -/
theorem trAux_get? :
    ∀ (bs : List Bar) (prev : Bar) (i : ℕ) (bp b : Bar),
      (prev :: bs).get? i = some bp → bs.get? i = some b →
      (trAux prev bs).get? i =
        some (max (b.hi - b.lo) (max |b.hi - bp.cl| |b.lo - bp.cl|)) := by
  intro bs
  induction bs with
  | nil => intro prev i bp b _ h2; simp at h2
  | cons x xs ih =>
    intro prev i bp b h1 h2
    cases i with
    | zero =>
      simp only [List.get?_cons_zero, Option.some.injEq] at h1 h2
      simp [trAux, h1, h2]
    | succ j =>
      have h1j : (x :: xs).get? j = some bp := by simpa using h1
      have h2j : xs.get? j = some b := by simpa using h2
      simpa [trAux] using ih x j bp b h1j h2j

/-- Helper for C7: every true-range entry is nonnegative when each bar
satisfies low ≤ high. -/
theorem trueRange_nonneg (bars : List Bar) (hvalid : ∀ b ∈ bars, b.lo ≤ b.hi) :
    ∀ x ∈ trueRange bars, 0 ≤ x := by
  have haux : ∀ (bs : List Bar) (prev : Bar), (∀ b ∈ bs, b.lo ≤ b.hi) →
      ∀ x ∈ trAux prev bs, 0 ≤ x := by
    intro bs
    induction bs with
    | nil => intro prev _ x hx; simp [trAux] at hx
    | cons y ys ih =>
      intro prev hv x hx
      simp only [trAux, List.mem_cons] at hx
      rcases hx with hx | hx
      · have h0 : 0 ≤ y.hi - y.lo := sub_nonneg.mpr (hv y (by simp))
        calc (0 : ℚ) ≤ y.hi - y.lo := h0
          _ ≤ max (y.hi - y.lo) (max |y.hi - prev.cl| |y.lo - prev.cl|) := le_max_left _ _
          _ = x := hx.symm
      · exact ih y (fun b hb => hv b (by simp [hb])) x hx
  intro x hx
  cases bars with
  | nil => simp [trueRange] at hx
  | cons b0 bs =>
    simp only [trueRange, List.mem_cons] at hx
    rcases hx with hx | hx
    · have h0 : 0 ≤ b0.hi - b0.lo := sub_nonneg.mpr (hvalid b0 (by simp))
      exact hx ▸ h0
    · exact haux bs b0 (fun b hb => hvalid b (by simp [hb])) x hx

/-- Helper for C7: every defined rolling-mean value over a nonnegative series
is nonnegative. -/
theorem rollingMean_nonneg (w : ℕ) (xs : List ℚ) (hx : ∀ x ∈ xs, 0 ≤ x) :
    ∀ i q, (rollingMean w xs).get? i = some (some q) → 0 ≤ q := by
  intro i q h
  unfold rollingMean at h
  rw [List.get?_map] at h
  cases hr : (List.range xs.length).get? i with
  | none => rw [hr] at h; simp at h
  | some j =>
    rw [hr] at h
    simp only [Option.map_some', Option.some.injEq] at h
    by_cases hw : j + 1 < w
    · rw [if_pos hw] at h; exact absurd h (by simp)
    · rw [if_neg hw] at h
      have hsum : 0 ≤ ((xs.take (j + 1)).drop (j + 1 - w)).sum := by
        refine List.sum_nonneg ?_
        intro y hy
        exact hx y (List.take_subset _ _ (List.drop_subset _ _ hy))
      have hq : ((xs.take (j + 1)).drop (j + 1 - w)).sum / (w : ℚ) = q :=
        Option.some.inj h
      rw [← hq]
      exact div_nonneg hsum (by positivity)

/-- C7: for every OHLC series whose bars satisfy high ≥ low, the true range is
`high - low` at bar 0 and `max(high-low, |high-prevClose|, |low-prevClose|)`
afterwards, and every defined ATR value is nonnegative. -/
theorem atr_nonneg (bars : List Bar) (hvalid : ∀ b ∈ bars, b.lo ≤ b.hi) :
    (∀ b0, bars.get? 0 = some b0 →
      (trueRange bars).get? 0 = some (b0.hi - b0.lo)) ∧
    (∀ i bp b, bars.get? i = some bp → bars.get? (i + 1) = some b →
      (trueRange bars).get? (i + 1) =
        some (max (b.hi - b.lo) (max |b.hi - bp.cl| |b.lo - bp.cl|))) ∧
    (∀ i q, ((compute_indicators bars).atr).get? i = some (some q) → 0 ≤ q) := by
  refine ⟨?_, ?_, ?_⟩
  · intro b0 h0
    cases bars with
    | nil => simp at h0
    | cons b bs =>
      simp only [List.get?_cons_zero, Option.some.injEq] at h0
      simp [trueRange, h0]
  · intro i bp b h1 h2
    cases bars with
    | nil => simp at h1
    | cons b0 bs =>
      have h2j : bs.get? i = some b := by simpa using h2
      simpa [trueRange] using trAux_get? bs b0 i bp b h1 h2j
  · intro i q h
    exact rollingMean_nonneg 14 (trueRange bars) (trueRange_nonneg bars hvalid) i q h

/-- Witness for C7 on a one-bar series with high = 3, low = 1. -/
theorem atr_nonneg_witness :
    (trueRange [⟨0, 1, 3, 1, 2⟩]).get? 0 = some ((3 : ℚ) - 1) :=
  (atr_nonneg [⟨0, 1, 3, 1, 2⟩] (by decide)).1 ⟨0, 1, 3, 1, 2⟩ rfl

/-- Helper: `get?` of a zip when both components are defined. -/
theorem zip_get?_some {α β : Type} :
    ∀ (l1 : List α) (l2 : List β) (i : ℕ) (a : α) (b : β),
      l1.get? i = some a → l2.get? i = some b →
      (l1.zip l2).get? i = some (a, b) := by
  intro l1
  induction l1 with
  | nil => intro l2 i a b h1 _; simp at h1
  | cons x xs ih =>
    intro l2 i a b h1 h2
    cases l2 with
    | nil => simp at h2
    | cons y ys =>
      cases i with
      | zero =>
        simp only [List.get?_cons_zero, Option.some.injEq] at h1 h2
        simp [List.zip_cons_cons, h1, h2]
      | succ j =>
        have h1j : xs.get? j = some a := by simpa using h1
        have h2j : ys.get? j = some b := by simpa using h2
        simpa [List.zip_cons_cons] using ih ys j a b h1j h2j

/-- C2 (amended): at a bar where the trailing 14-delta average loss is zero
and the average gain is positive, the RSI is 100; but where both averages
are zero, the RSI is NaN — the NaN is produced, not an explicit
unavailable value. -/
theorem rsi_edge_behavior (closes : List ℚ) (i : ℕ) (g : ℚ) :
    ((rollingMean 14 (gains closes)).get? i = some (some g) → 0 < g →
      (rollingMean 14 (losses closes)).get? i = some (some 0) →
      (rsiSeries closes).get? i = some (PF.val 100)) ∧
    ((rollingMean 14 (gains closes)).get? i = some (some 0) →
      (rollingMean 14 (losses closes)).get? i = some (some 0) →
      (rsiSeries closes).get? i = some PF.nan) := by
  constructor
  · intro hg hpos hl
    unfold rsiSeries
    rw [List.get?_map, zip_get?_some _ _ i _ _ hg hl]
    simp only [Option.map_some', Option.some.injEq, toPF]
    rw [PF.div, if_pos rfl, if_neg hpos.ne', if_pos hpos]
    show PF.sub (PF.val 100) (PF.div (PF.val 100) (PF.add (PF.val 1) PF.pinf)) = _
    simp [PF.add, PF.div, PF.sub]
  · intro hg hl
    unfold rsiSeries
    rw [List.get?_map, zip_get?_some _ _ i _ _ hg hl]
    simp only [Option.map_some', Option.some.injEq, toPF]
    rw [PF.div, if_pos rfl, if_pos rfl]
    show PF.sub (PF.val 100) (PF.div (PF.val 100) (PF.add (PF.val 1) PF.nan)) = _
    simp [PF.add, PF.div, PF.sub]

/-- Helper: the 14-bar rolling mean of fifteen zero deltas. -/
theorem rollingMean_zero15 :
    rollingMean 14 [0, 0, 0, 0, 0, 0, 0, 0, 0, 0, 0, 0, 0, 0, 0] =
      [none, none, none, none, none, none, none, none, none, none, none, none,
       none, some 0, some 0] := by
  have hrange : List.range 15 = [0, 1, 2, 3, 4, 5, 6, 7, 8, 9, 10, 11, 12, 13, 14] := by
    decide
  simp only [rollingMean]
  norm_num [hrange]

/-- Counterexample to C2 as stated: on fifteen equal closes both rolling
averages are zero once the window fills, the code's RSI is NaN at the last
bar, and `main` copies that NaN into the output row — no explicit
unavailable value is substituted. -/
theorem rsi_nan_counterexample :
    (rsiSeries [1, 1, 1, 1, 1, 1, 1, 1, 1, 1, 1, 1, 1, 1, 1]).get? 14 =
      some PF.nan ∧
    row_rsi [1, 1, 1, 1, 1, 1, 1, 1, 1, 1, 1, 1, 1, 1, 1] = some PF.nan := by
  have hgain : gains [1, 1, 1, 1, 1, 1, 1, 1, 1, 1, 1, 1, 1, 1, 1] =
      [0, 0, 0, 0, 0, 0, 0, 0, 0, 0, 0, 0, 0, 0, 0] := by
    norm_num [gains, diff, diffAux]
  have hloss : losses [1, 1, 1, 1, 1, 1, 1, 1, 1, 1, 1, 1, 1, 1, 1] =
      [0, 0, 0, 0, 0, 0, 0, 0, 0, 0, 0, 0, 0, 0, 0] := by
    norm_num [losses, diff, diffAux]
  have hval : rsiSeries [1, 1, 1, 1, 1, 1, 1, 1, 1, 1, 1, 1, 1, 1, 1] =
      [PF.nan, PF.nan, PF.nan, PF.nan, PF.nan, PF.nan, PF.nan, PF.nan, PF.nan,
       PF.nan, PF.nan, PF.nan, PF.nan, PF.nan, PF.nan] := by
    unfold rsiSeries
    rw [hgain, hloss, rollingMean_zero15]
    norm_num [toPF, PF.div, PF.add, PF.sub]
  constructor
  · rw [hval]; rfl
  · unfold row_rsi
    rw [hval]; rfl

/-- Witness for C2 (amended) on a strictly rising series: zero average loss,
positive average gain, RSI = 100 at the last bar. -/
theorem rsi_edge_behavior_witness :
    (rsiSeries [0, 1, 2, 3, 4, 5, 6, 7, 8, 9, 10, 11, 12, 13, 14]).get? 14 =
      some (PF.val 100) := by
  have hgain : gains [0, 1, 2, 3, 4, 5, 6, 7, 8, 9, 10, 11, 12, 13, 14] =
      [0, 1, 1, 1, 1, 1, 1, 1, 1, 1, 1, 1, 1, 1, 1] := by
    norm_num [gains, diff, diffAux]
  have hloss : losses [0, 1, 2, 3, 4, 5, 6, 7, 8, 9, 10, 11, 12, 13, 14] =
      [0, 0, 0, 0, 0, 0, 0, 0, 0, 0, 0, 0, 0, 0, 0] := by
    norm_num [losses, diff, diffAux]
  have hrollg : rollingMean 14 [0, 1, 1, 1, 1, 1, 1, 1, 1, 1, 1, 1, 1, 1, 1] =
      [none, none, none, none, none, none, none, none, none, none, none, none,
       none, some (13 / 14), some 1] := by
    have hrange : List.range 15 = [0, 1, 2, 3, 4, 5, 6, 7, 8, 9, 10, 11, 12, 13, 14] := by
      decide
    simp only [rollingMean]
    norm_num [hrange]
  have hg : (rollingMean 14
      (gains [0, 1, 2, 3, 4, 5, 6, 7, 8, 9, 10, 11, 12, 13, 14])).get? 14 =
      some (some 1) := by
    rw [hgain, hrollg]; rfl
  have hl : (rollingMean 14
      (losses [0, 1, 2, 3, 4, 5, 6, 7, 8, 9, 10, 11, 12, 13, 14])).get? 14 =
      some (some 0) := by
    rw [hloss, rollingMean_zero15]; rfl
  exact (rsi_edge_behavior [0, 1, 2, 3, 4, 5, 6, 7, 8, 9, 10, 11, 12, 13, 14]
    14 1).1 hg (by norm_num) hl

/-- Helper: `parseRow` preserves the timestamp. -/
theorem parseRow_ts {r : RawBar} {b : Bar} (h : parseRow r = some b) :
    b.ts = r.ts := by
  rcases r with ⟨ts, o, hi, lo, cl⟩
  rcases o with _ | ov
  · simp [parseRow] at h
  rcases hi with _ | hv
  · simp [parseRow] at h
  rcases lo with _ | lv
  · simp [parseRow] at h
  rcases cl with _ | cv
  · simp [parseRow] at h
  have h2 : (⟨ts, ov, hv, lv, cv⟩ : Bar) = b := Option.some.inj h
  rw [← h2]

/-- Helper: the length of a `filterMap` counts the inputs on which the
function succeeds. -/
theorem length_filterMap_eq {α β : Type} (f : α → Option β) :
    ∀ l : List α, (l.filterMap f).length = l.countP (fun a => (f a).isSome) := by
  intro l
  induction l with
  | nil => simp
  | cons x xs ih =>
    cases hf : f x with
    | none => simp [List.filterMap_cons, hf, List.countP_cons, ih]
    | some b => simp [List.filterMap_cons, hf, List.countP_cons, ih]

/-- C6 (amended): the cleaned series is ascending-time-ordered and unparseable
rows are dropped, but duplicate timestamps are retained (the output length
equals the number of parseable rows, duplicates included) and a result
with fewer than 2 bars is returned normally rather than raising DataError;
every output bar comes from an input row. -/
theorem fetch_data_clean_props (rows : List RawBar) :
    List.Pairwise (fun a b => a.ts ≤ b.ts) (fetch_data_clean rows) ∧
    (fetch_data_clean rows).length =
      rows.countP (fun r => (parseRow r).isSome) ∧
    ∀ b ∈ fetch_data_clean rows, ∃ r ∈ rows, parseRow r = some b := by
  refine ⟨?_, ?_, ?_⟩
  · have htrans : ∀ a b c : RawBar, (decide (a.ts ≤ b.ts)) = true →
        (decide (b.ts ≤ c.ts)) = true → (decide (a.ts ≤ c.ts)) = true := by
      intro a b c hab hbc
      simp only [decide_eq_true_iff] at hab hbc ⊢
      exact le_trans hab hbc
    have htotal : ∀ a b : RawBar,
        ((decide (a.ts ≤ b.ts)) || (decide (b.ts ≤ a.ts))) = true := by
      intro a b
      simp only [Bool.or_eq_true, decide_eq_true_iff]
      exact Nat.le_total a.ts b.ts
    have hsorted := List.sorted_mergeSort htrans htotal rows
    refine List.Pairwise.filterMap parseRow ?_ hsorted
    intro a a2 hle b hb b2 hb2
    have hb' : parseRow a = some b := hb
    have hb2' : parseRow a2 = some b2 := hb2
    rw [parseRow_ts hb', parseRow_ts hb2']
    exact decide_eq_true_iff.mp hle
  · unfold fetch_data_clean
    rw [length_filterMap_eq]
    exact (List.mergeSort_perm rows _).countP_eq _
  · intro b hb
    unfold fetch_data_clean at hb
    rcases List.mem_filterMap.mp hb with ⟨a, ha, hpa⟩
    exact ⟨a, ((List.mergeSort_perm rows _).mem_iff).mp ha, hpa⟩

/-- Witness for C6 (amended): a parseable row survives cleaning. -/
theorem fetch_data_clean_props_witness :
    ∃ r ∈ [RawBar.mk 5 (some 1) (some 2) (some 1) (some 1)],
      parseRow r = some ⟨5, 1, 2, 1, 1⟩ :=
  (fetch_data_clean_props [⟨5, some 1, some 2, some 1, some 1⟩]).2.2
    ⟨5, 1, 2, 1, 1⟩ (by simp [fetch_data_clean, List.mergeSort, parseRow])

/-- Counterexample to C6 as stated: two parseable rows with the same
timestamp both survive cleaning (no last-write-wins de-duplication), and a
single-bar result is returned normally (no DataError for fewer than 2
bars). -/
theorem normalizer_claim_counterexample :
    (fetch_data_clean [⟨7, some 1, some 2, some 1, some 1⟩,
      ⟨7, some 1, some 2, some 1, some 3⟩]).length = 2 ∧
    fetch_data_clean [⟨7, some 1, some 2, some 1, some 1⟩] = [⟨7, 1, 2, 1, 1⟩] := by
  constructor <;> simp [fetch_data_clean, List.mergeSort, parseRow]
